import Mathlib

/-!
# Verification of the polisen-se-events-history export pipeline

A shallow embedding of `export-events.py` (the extraction / merge / filter /
enrich / flatten pipeline for Swedish police event records) together with
proofs of the specified properties.

Modelling conventions:
* Python/JSON values are modelled by the inductive type `PyVal`.  JSON
  numbers are modelled by `PyVal.int` (integers) and `PyVal.float`
  (rationals - IEEE binary rounding of decimal literals is not modelled).
* Python dicts are modelled as association lists with unique keys (as
  produced by `json.loads`); assignment `d[k] = v` is `dinsert`, which
  replaces in place or appends, matching insertion-order semantics.
* Fallible code is modelled with `Option`/`Except`: a `Option.none` result
  of a pipeline stage models an uncaught Python exception aborting the run.
* External effects (running `git show`, `json.loads`, reading and parsing
  an HTML file with lxml) are modelled by their observable outcomes
  (`SnapshotFetch`, `DocResult`); the control flow around them is
  translated from the source.
-/

/-- The domain of Python values produced by `json.loads` plus the values the
script itself creates (floats from GPS parsing, `None`, booleans). -/
inductive PyVal where
  | none
  | bool (b : Bool)
  | int (n : Int)
  | float (q : ℚ)
  | str (s : String)
  | list (xs : List PyVal)
  | dict (fields : List (String × PyVal))

/-- A Python dict with string keys, as produced by `json.loads` for a JSON
object: an association list in insertion order with unique keys. -/
abbrev PyDict := List (String × PyVal)

/-- `d.get(k, dflt)`-style lookup returning an `Option`. -/
def dlookup {α : Type} (d : List (String × α)) (k : String) : Option α :=
  match d with
  | [] => Option.none
  | p :: rest => if p.1 = k then some p.2 else dlookup rest k

/-- Python `d.get(k, dflt)`. -/
def dget {α : Type} (d : List (String × α)) (k : String) (dflt : α) : α :=
  (dlookup d k).getD dflt

/-- Python `k in d` (dict key membership). -/
def dhasKey {α : Type} (d : List (String × α)) (k : String) : Bool :=
  (dlookup d k).isSome

/-- Python dict assignment `d[k] = v`: replace the value in place if the key
exists, otherwise append the new pair (insertion-order semantics). -/
def dinsert {α : Type} (d : List (String × α)) (k : String) (v : α) :
    List (String × α) :=
  match d with
  | [] => [(k, v)]
  | p :: rest => if p.1 = k then (k, v) :: rest else p :: dinsert rest k v

/-- Python `d.update(other)`: insert every pair of `other` in order. -/
def dupdate (d other : PyDict) : PyDict :=
  other.foldl (fun acc p => dinsert acc p.1 p.2) d

/-- Python truthiness (`if x:`) for the modelled value domain. -/
def pyTruthy : PyVal → Bool
  | .none => false
  | .bool b => b
  | .int n => n ≠ 0
  | .float q => q ≠ 0
  | .str s => s ≠ ""
  | .list xs => ¬ xs.isEmpty
  | .dict fs => ¬ fs.isEmpty

/-- Decimal rendering used by `pyStr` for floats.  Python renders floats
with the shortest round-tripping decimal; the precise digits are never
inspected by the script, only (non-)emptiness, so a plain rendering of the
rational value is used here. -/
def floatStr (q : ℚ) : String :=
  if q.den = 1 then toString q.num ++ ".0" else toString q.num ++ "/" ++ toString q.den

mutual

/-- Python `str(v)`.  (For strings inside containers Python uses `repr`;
quote/escape subtleties of `repr` on exotic strings are not modelled, only
the always-non-empty bracketed shape matters to the script.) -/
def pyStr : PyVal → String
  | .none => "None"
  | .bool b => if b then "True" else "False"
  | .int n => toString n
  | .float q => floatStr q
  | .str s => s
  | .list xs => "[" ++ pyReprList xs ++ "]"
  | .dict fs => "\x7b" ++ pyReprFields fs ++ "\x7d"

/-- Python `repr(v)` as used for elements inside container `str`. -/
def pyRepr : PyVal → String
  | .str s => "\x27" ++ s ++ "\x27"
  | .none => "None"
  | .bool b => if b then "True" else "False"
  | .int n => toString n
  | .float q => floatStr q
  | .list xs => "[" ++ pyReprList xs ++ "]"
  | .dict fs => "\x7b" ++ pyReprFields fs ++ "\x7d"

/-- Comma-separated `repr`s of list elements. -/
def pyReprList : List PyVal → String
  | [] => ""
  | [x] => pyRepr x
  | x :: xs => pyRepr x ++ ", " ++ pyReprList xs

/-- Comma-separated `key: value` reprs of dict entries. -/
def pyReprFields : List (String × PyVal) → String
  | [] => ""
  | [(k, v)] => "\x27" ++ k ++ "\x27: " ++ pyRepr v
  | (k, v) :: fs => "\x27" ++ k ++ "\x27: " ++ pyRepr v ++ ", " ++ pyReprFields fs

end

/-! ## Character-level string helpers

Python string operations used by the script (`split(',')`, `strip()`,
`float(...)`) are modelled on `List Char`. -/

/-- Whitespace stripped by Python `str.strip()` / accepted by `float()`
(ASCII whitespace; exotic unicode space characters are not modelled). -/
def isPySpace (c : Char) : Bool :=
  c = ' ' ∨ c = Char.ofNat 9 ∨ c = Char.ofNat 10 ∨ c = Char.ofNat 11 ∨
    c = Char.ofNat 12 ∨ c = Char.ofNat 13

/-- Python `str.strip()`. -/
def stripChars (cs : List Char) : List Char :=
  ((cs.dropWhile isPySpace).reverse.dropWhile isPySpace).reverse

/-- Python `s.split(sep)` for a single-character separator: `"a,,b"` gives
three parts, the empty string gives `[""]`. -/
def splitOnChar (cs : List Char) (c : Char) : List (List Char) :=
  match cs with
  | [] => [[]]
  | x :: xs =>
    if x = c then [] :: splitOnChar xs c
    else
      match splitOnChar xs c with
      | h :: t => (x :: h) :: t
      | [] => [[x]]

/-- Value of a list of decimal digit characters. -/
def digitsToNat (ds : List Char) : ℕ :=
  ds.foldl (fun a c => a * 10 + (c.toNat - 48)) 0

/-- The optional exponent tail of a float literal: `""`, or
`e[+-]?digits` consuming the entire remainder; returns the signed decimal
exponent. -/
def parseExpPart (cs : List Char) : Option ℤ :=
  match cs with
  | [] => some 0
  | c :: rest =>
    if c = 'e' ∨ c = 'E' then
      let (sgn, rest2) : ℤ × List Char :=
        match rest with
        | c2 :: r2 =>
          if c2 = '+' then (1, r2) else if c2 = '-' then (-1, r2) else (1, rest)
        | [] => (1, [])
      let ds := rest2.takeWhile (·.isDigit)
      let rest3 := rest2.drop ds.length
      if ds.isEmpty ∨ ¬ rest3.isEmpty then Option.none
      else some (sgn * (digitsToNat ds : ℤ))
    else Option.none

/-- Python `float(s)` on the character list of `s`: optional surrounding
whitespace, optional sign, then `digits [. digits] | . digits`, then an
optional exponent.  Not modelled: `inf`/`nan` literals (they parse in
Python but always fail the Swedish-bounds check downstream, so
`parse_gps_string` behaves identically), digit-group underscores, and
non-ASCII decimal digits.  The value is the exact rational of the
literal, assembled with `mkRat` from the integer mantissa `m` read off
the concatenated digits, the count `f` of fractional digits and the
exponent `e`: `m * 10 ^ (e - f)`.  IEEE-754 rounding is not modelled. -/
def pyFloatChars (cs0 : List Char) : Option ℚ :=
  let cs1 := stripChars cs0
  let (neg, cs) : Bool × List Char :=
    match cs1 with
    | c :: rest =>
      if c = '+' then (false, rest) else if c = '-' then (true, rest) else (false, cs1)
    | [] => (false, [])
  let ip := cs.takeWhile (·.isDigit)
  let rest := cs.drop ip.length
  let core : Option (ℕ × ℕ × List Char) :=
    match rest with
    | c :: rest2 =>
      if c = '.' then
        let fp := rest2.takeWhile (·.isDigit)
        let rest3 := rest2.drop fp.length
        if ip.isEmpty ∧ fp.isEmpty then Option.none
        else some (digitsToNat (ip ++ fp), fp.length, rest3)
      else if ip.isEmpty then Option.none
      else some (digitsToNat ip, 0, rest)
    | [] => if ip.isEmpty then Option.none else some (digitsToNat ip, 0, [])
  match core with
  | some (mant, fracLen, r) =>
    match parseExpPart r with
    | some e =>
      let num : ℤ := if neg then -(mant : ℤ) else (mant : ℤ)
      let e2 : ℤ := e - fracLen
      some (if 0 ≤ e2 then mkRat (num * (10 : ℤ) ^ e2.toNat) 1
            else mkRat num ((10 : ℕ) ^ (-e2).toNat))
    | Option.none => Option.none
  | Option.none => Option.none

/-- Python `float(s)`. -/
def pyFloat (s : String) : Option ℚ := pyFloatChars s.data

/-! ## GPS parsing (source: `parse_gps_string`, lines 53-81)

`parse_gps_string` raises `ValueError` on malformed input or coordinates
outside the permissive Swedish bounding box; modelled with `Except String`
carrying the error message. -/

/-- Source `parse_gps_string`: split `"lat,lon"` on the comma, `strip` and
`float`-parse both sides, validate the Swedish bounds 55-70°N / 10-25°E. -/
def parse_gps_string (gps_str : String) : Except String (ℚ × ℚ) :=
  let cs := gps_str.data
  if cs = [] ∨ ',' ∉ cs then
    .error ("Invalid GPS format: " ++ gps_str)
  else
    match splitOnChar cs ',' with
    | [p0, p1] =>
      match pyFloatChars (stripChars p0), pyFloatChars (stripChars p1) with
      | some lat, some lon =>
        if ¬ (55 ≤ lat ∧ lat ≤ 70) then
          .error ("Latitude " ++ floatStr lat ++ " outside Swedish bounds (55-70°N)")
        else if ¬ (10 ≤ lon ∧ lon ≤ 25) then
          .error ("Longitude " ++ floatStr lon ++ " outside Swedish bounds (10-25°E)")
        else .ok (lat, lon)
      | _, _ => .error ("Could not parse coordinates: " ++ gps_str)
    | parts => .error ("Expected 2 coordinates, got " ++ toString parts.length ++ ": " ++ gps_str)

/-! ## Datetimes (`datetime.fromisoformat` and comparison)

Python `datetime` objects are modelled by their components plus an optional
UTC offset in minutes (`Option.none` = a naive datetime).  Comparison of a
naive and an aware datetime with `<` / `>` raises `TypeError` in Python;
this is modelled by `pyDtLt` returning `Option.none`. -/

/-- A Python `datetime.datetime`: components plus an optional UTC offset in
minutes (`Option.none` models a naive datetime without `tzinfo`). -/
structure PyDatetime where
  year : ℕ
  month : ℕ
  day : ℕ
  hour : ℕ
  minute : ℕ
  second : ℕ
  microsecond : ℕ
  utcoffset : Option ℤ
  deriving DecidableEq

/-- Exactly `n` leading decimal digits, returning their value and the rest. -/
def parseDigitsN (cs : List Char) (n : ℕ) : Option (ℕ × List Char) :=
  let ds := cs.take n
  if ds.length = n ∧ ds.all (·.isDigit) then some (digitsToNat ds, cs.drop n)
  else Option.none

/-- One expected character. -/
def expectChar (cs : List Char) (c : Char) : Option (List Char) :=
  match cs with
  | x :: rest => if x = c then some rest else Option.none
  | [] => Option.none

/-- Gregorian leap-year rule. -/
def isLeap (y : ℕ) : Bool := (y % 4 = 0 ∧ y % 100 ≠ 0) ∨ y % 400 = 0

/-- Days in a month, as validated by the `datetime` constructor. -/
def daysInMonth (y m : ℕ) : ℕ :=
  if m = 2 then (if isLeap y then 29 else 28)
  else if m = 4 ∨ m = 6 ∨ m = 9 ∨ m = 11 then 30
  else 31

/-- The timezone suffix of an ISO string: empty (naive), `Z`/`z` (UTC), or
`±HH:MM` (modelled subset; Python 3.11+ also accepts `±HHMM`, `±HH` and
offset seconds, which the script's data never uses).  Must consume the
whole remainder. -/
def parseTzSuffix (cs : List Char) : Option (Option ℤ) :=
  match cs with
  | [] => some Option.none
  | c :: rest =>
    if c = 'Z' ∨ c = 'z' then
      if rest.isEmpty then some (some 0) else Option.none
    else if c = '+' ∨ c = '-' then
      match parseDigitsN rest 2 with
      | some (hh, r1) =>
        match expectChar r1 ':' with
        | some r2 =>
          match parseDigitsN r2 2 with
          | some (mm, r3) =>
            if ¬ r3.isEmpty ∨ hh ≥ 24 ∨ mm ≥ 60 then Option.none
            else some (some (if c = '-' then -((hh : ℤ) * 60 + mm) else (hh : ℤ) * 60 + mm))
          | Option.none => Option.none
        | Option.none => Option.none
      | Option.none => Option.none
    else Option.none

/-- The time-of-day part `HH:MM[:SS[.ffffff]]` followed by the timezone
suffix.  A fractional part has 1-6 digits (Python 3.11 truncates longer
fractions; not modelled), scaled to microseconds. -/
def parseTimeTz (y mo d : ℕ) (cs : List Char) : Option PyDatetime :=
  match parseDigitsN cs 2 with
  | Option.none => Option.none
  | some (h, r1) =>
    match expectChar r1 ':' with
    | Option.none => Option.none
    | some r2 =>
      match parseDigitsN r2 2 with
      | Option.none => Option.none
      | some (mi, r3) =>
        let secPart : Option (ℕ × ℕ × List Char) :=
          match r3 with
          | c :: rest =>
            if c = ':' then
              match parseDigitsN rest 2 with
              | Option.none => Option.none
              | some (s2, r4) =>
                match r4 with
                | c2 :: r5 =>
                  if c2 = '.' ∨ c2 = ',' then
                    let ds := r5.takeWhile (·.isDigit)
                    let r6 := r5.drop ds.length
                    if ds.isEmpty ∨ ds.length > 6 then Option.none
                    else some (s2, digitsToNat ds * 10 ^ (6 - ds.length), r6)
                  else some (s2, 0, r4)
                | [] => some (s2, 0, [])
            else some (0, 0, r3)
          | [] => some (0, 0, [])
        match secPart with
        | Option.none => Option.none
        | some (sec, micro, r7) =>
          if h ≥ 24 ∨ mi ≥ 60 ∨ sec ≥ 60 then Option.none
          else
            match parseTzSuffix r7 with
            | Option.none => Option.none
            | some off => some ⟨y, mo, d, h, mi, sec, micro, off⟩

/-- Python `datetime.fromisoformat` for the `YYYY-MM-DD[<sep>HH:MM[:SS
[.ffffff]][offset]]` family the script relies on (the CLI dates and the
stored event timestamps).  Other ISO-8601 spellings accepted by Python
3.11+ (`YYYYMMDD`, week dates, `HH` alone, ...) are not modelled.  Returns
`Option.none` where Python raises `ValueError` - in particular for the
space-before-offset form `"... +01:00"`, which CPython also rejects. -/
def fromisoformat (s : String) : Option PyDatetime :=
  match parseDigitsN s.data 4 with
  | Option.none => Option.none
  | some (y, r1) =>
    match expectChar r1 '-' with
    | Option.none => Option.none
    | some r2 =>
      match parseDigitsN r2 2 with
      | Option.none => Option.none
      | some (mo, r3) =>
        match expectChar r3 '-' with
        | Option.none => Option.none
        | some r4 =>
          match parseDigitsN r4 2 with
          | Option.none => Option.none
          | some (d, r5) =>
            if y = 0 ∨ mo = 0 ∨ mo > 12 ∨ d = 0 ∨ d > daysInMonth y mo then Option.none
            else
              match r5 with
              | [] => some ⟨y, mo, d, 0, 0, 0, 0, Option.none⟩
              | _ :: r6 => parseTimeTz y mo d r6

/-- Day count of a civil date (days since 0000-03-01, Hinnant's algorithm;
all quantities non-negative for the validated years ≥ 1). -/
def civilDays (y m d : ℕ) : ℕ :=
  let y2 := if m ≤ 2 then y - 1 else y
  let era := y2 / 400
  let yoe := y2 % 400
  let mp := (m + 9) % 12
  let doy := (153 * mp + 2) / 5 + d - 1
  let doe := yoe * 365 + yoe / 4 - yoe / 100 + doy
  era * 146097 + doe

/-- Microseconds on the proleptic timeline ignoring the offset. -/
def dtMicros (t : PyDatetime) : ℤ :=
  ((((civilDays t.year t.month t.day : ℤ) * 24 + t.hour) * 60 + t.minute) * 60
      + t.second) * 1000000 + t.microsecond

/-- Python `a < b` on datetimes: naive pairs compare componentwise (equal,
for valid components, to timeline order), aware pairs compare by UTC
instant, and a mixed pair raises `TypeError` (`Option.none`). -/
def pyDtLt (a b : PyDatetime) : Option Bool :=
  match a.utcoffset, b.utcoffset with
  | Option.none, Option.none => some (decide (dtMicros a < dtMicros b))
  | some oa, some ob =>
    some (decide (dtMicros a - oa * 60000000 < dtMicros b - ob * 60000000))
  | _, _ => Option.none

/-- Python `a > b` on datetimes. -/
def pyDtGt (a b : PyDatetime) : Option Bool := pyDtLt b a

/-- Source `main`, lines 480-486: the `--start-date` bound is
`datetime.fromisoformat(arg).replace(hour=0, minute=0, second=0)` - a
naive datetime at the start of the day. -/
def cli_start_date (arg : String) : Option PyDatetime :=
  (fromisoformat arg).map (fun t => { t with hour := 0, minute := 0, second := 0 })

/-- Source `main`, lines 488-494: the `--end-date` bound is
`datetime.fromisoformat(arg).replace(hour=23, minute=59, second=59)` - a
naive datetime at the last second of the day (microsecond untouched). -/
def cli_end_date (arg : String) : Option PyDatetime :=
  (fromisoformat arg).map (fun t => { t with hour := 23, minute := 59, second := 59 })

/-! ## Snapshot extraction and merge (source lines 175-256)

One commit's `git show <sha>:events.json` + `json.loads` is modelled by its
observable outcome `SnapshotFetch`. -/

/-- Outcome of fetching and JSON-parsing one commit's snapshot:
`fetchFailed` models `subprocess.CalledProcessError` from `git show`,
`parseFailed` models `json.JSONDecodeError` from `json.loads`, and
`parsed v` carries the parsed JSON value. -/
inductive SnapshotFetch where
  | fetchFailed
  | parseFailed
  | parsed (v : PyVal)

/-- Source `extract_events_from_commit` (lines 175-195): both failure arms
are caught and yield `[]` with a warning; a parsed value that is not a list
also yields `[]` (`return events if isinstance(events, list) else []`).
The function is total: it never propagates an exception. -/
def extract_events_from_commit : SnapshotFetch → List PyVal
  | .fetchFailed => []
  | .parseFailed => []
  | .parsed (.list xs) => xs
  | .parsed _ => []

/-- The merged `events_by_id` mapping: identity → surviving record. -/
abbrev EventMap := List (String × PyDict)

/-- A record's identity: `str(event.get('id', ''))` (source line 221). -/
def eventId (f : PyDict) : String := pyStr (dget f "id" (.str ""))

/-- One iteration of the merge loop (source lines 220-226): for a mapping
entry compute the identity, skip it if the coerced identity is empty,
otherwise insert/overwrite.  A non-mapping list element has no `.get`
attribute, so Python raises an uncaught `AttributeError`: `Option.none`. -/
def mergeEvent (d : EventMap) (ev : PyVal) : Option EventMap :=
  match ev with
  | .dict f =>
    let event_id := eventId f
    if event_id = "" then some d else some (dinsert d event_id f)
  | _ => Option.none

/-- The merge loop over one snapshot's event list. -/
def mergeEvents (d : EventMap) : List PyVal → Option EventMap
  | [] => some d
  | ev :: rest =>
    match mergeEvent d ev with
    | some d2 => mergeEvents d2 rest
    | Option.none => Option.none

/-- The merge loop over all snapshots in walk order. -/
def mergeSnapshots (d : EventMap) : List (List PyVal) → Option EventMap
  | [] => some d
  | evs :: rest =>
    match mergeEvents d evs with
    | some d2 => mergeSnapshots d2 rest
    | Option.none => Option.none

/-- The merge stage of `extract_all_events` (lines 213-226), starting from
the empty `events_by_id = {}`. -/
def mergeAll (snapshots : List (List PyVal)) : Option EventMap :=
  mergeSnapshots [] snapshots

/-- Per-record outcome of the date-filter loop body (lines 234-251),
distinguishing the two logging behaviours: `keep` inserts into `filtered`,
`dropSilent` is a bare `continue` (missing/falsy datetime, or out of
range), `dropWarn` is the `except ValueError` arm with
`logger.warning(...)`. -/
inductive FilterOutcome where
  | keep
  | dropSilent
  | dropWarn
  deriving DecidableEq

/-- One iteration of the date-filter loop (source lines 234-251).
`Option.none` models an uncaught exception: `TypeError` from comparing an
offset-aware parsed datetime with a naive bound (only `ValueError` is
caught), or `TypeError` from `fromisoformat` applied to a truthy non-string
`datetime` field. -/
def filterEvent (sd ed : Option PyDatetime) (event : PyDict) : Option FilterOutcome :=
  match dget event "datetime" (.str "") with
  | .str s =>
    if s = "" then some .dropSilent
    else
      match fromisoformat s with
      | Option.none => some .dropWarn
      | some dt =>
        match sd with
        | some sdv =>
          match pyDtLt dt sdv with
          | Option.none => Option.none
          | some true => some .dropSilent
          | some false =>
            match ed with
            | some edv =>
              match pyDtGt dt edv with
              | Option.none => Option.none
              | some true => some .dropSilent
              | some false => some .keep
            | Option.none => some .keep
        | Option.none =>
          match ed with
          | some edv =>
            match pyDtGt dt edv with
            | Option.none => Option.none
            | some true => some .dropSilent
            | some false => some .keep
          | Option.none => some .keep
  | v => if pyTruthy v then Option.none else some .dropSilent

/-- The date-filter loop (source lines 233-251): build `filtered` in
iteration order from the records whose outcome is `keep`. -/
def filterEvents (sd ed : Option PyDatetime) (acc : EventMap) : EventMap → Option EventMap
  | [] => some acc
  | p :: rest =>
    match filterEvent sd ed p.2 with
    | Option.none => Option.none
    | some .keep => filterEvents sd ed (dinsert acc p.1 p.2) rest
    | some _ => filterEvents sd ed acc rest

/-- Source `extract_all_events` (lines 198-256): merge every commit's
extracted events with last-write-wins, then, if a start or end date is
given, filter by the intrinsic `datetime` field. -/
def extract_all_events (fetches : List SnapshotFetch)
    (start_date end_date : Option PyDatetime) : Option EventMap :=
  match mergeAll (fetches.map extract_events_from_commit) with
  | Option.none => Option.none
  | some events_by_id =>
    if start_date.isSome || end_date.isSome then
      filterEvents start_date end_date [] events_by_id
    else some events_by_id

/-! ## HTML enrichment (source lines 84-145 and 259-304)

Reading and lxml-parsing one record's HTML document is modelled by its
observable outcome `DocResult`. -/

/-- Outcome of locating and extracting one record's narrative document:
`missing` models `not html_path.exists()`, `malformed` models
`extract_html_data` raising (e.g. no `.event-page.editorial-content`
container), and `extracted` carries the five optional fields extracted by
`extract_html_data` (each `None` when the corresponding element is
absent). -/
inductive DocResult where
  | missing
  | malformed
  | extracted (title preamble body published author : Option String)

/-- `None`-or-string field values. -/
def optStr : Option String → PyVal
  | some s => .str s
  | Option.none => .none

/-- The dict returned by a successful `extract_html_data` (source lines
138-145): the five narrative fields plus `html_available: True`. -/
def htmlDataObj (title preamble body published author : Option String) : PyDict :=
  [("html_title", optStr title),
   ("html_preamble", optStr preamble),
   ("html_body", optStr body),
   ("html_published_datetime", optStr published),
   ("html_author", optStr author),
   ("html_available", .bool true)]

/-- The six assignments of the missing-file and parse-error branches of
`enrich_with_html` (source lines 281-286 and 295-300), in source order. -/
def setNullHtml (event : PyDict) : PyDict :=
  let e1 := dinsert event "html_available" (.bool false)
  let e2 := dinsert e1 "html_title" .none
  let e3 := dinsert e2 "html_preamble" .none
  let e4 := dinsert e3 "html_body" .none
  let e5 := dinsert e4 "html_published_datetime" .none
  dinsert e5 "html_author" .none

/-- Source `enrich_with_html` (lines 259-304): for every record, look up
the document `{event_id}.html` in the store; on `missing` or `malformed`
set `html_available=False` and the five narrative fields to `None`
(`except Exception` catches every extraction error), on success
`event.update(html_data)`.  Records are mutated in place while iterating
`events.items()`, so the mapping keeps exactly its keys and order. -/
def enrich_with_html (events : EventMap) (store : String → DocResult) : EventMap :=
  events.map (fun p =>
    match store p.1 with
    | .missing => (p.1, setNullHtml p.2)
    | .malformed => (p.1, setNullHtml p.2)
    | .extracted t pr b pub a => (p.1, dupdate p.2 (htmlDataObj t pr b pub a)))

/-! ## Flattening (source lines 307-352) -/

/-- The latitude/longitude pair produced by the GPS block of
`flatten_event_for_export` (source lines 329-341) for the raw value of
`location.get('gps', '')`.  A falsy value skips parsing (both `None`); a
non-empty string goes through `parse_gps_string`, whose `ValueError` is
caught (both `None`).  A truthy non-string raises an uncaught exception
(`Option.none` result): `',' not in gps_str` raises `TypeError` on
numbers/booleans, and on a truthy list/dict that does contain a `","`
element/key the subsequent `gps_str.split(',')` raises `AttributeError`
(when `","` is absent, the `ValueError` raised by `parse_gps_string` is
caught and both fields are `None`). -/
def gpsLatLon (gps : PyVal) : Option (PyVal × PyVal) :=
  match gps with
  | .str s =>
    if s = "" then some (.none, .none)
    else
      match parse_gps_string s with
      | .ok (lat, lon) => some (.float lat, .float lon)
      | .error _ => some (.none, .none)
  | .list xs =>
    if xs.isEmpty then some (.none, .none)
    else if xs.any (fun v => match v with | .str s => s = "," | _ => false) then Option.none
    else some (.none, .none)
  | .dict fs =>
    if fs.isEmpty then some (.none, .none)
    else if fs.any (fun p => p.1 = ",") then Option.none
    else some (.none, .none)
  | v => if pyTruthy v then Option.none else some (.none, .none)

/-- Source `flatten_event_for_export` (lines 307-352): project a (possibly
enriched) record to the flat export dict.  `location = event.get('location',
{})` must be a mapping - on any other present value `.get` raises an
uncaught `AttributeError`, modelled by `Option.none`.  The narrative
columns are attached exactly when the marker key `html_available` exists in
the record (lines 344-350). -/
def flatten_event_for_export (event : PyDict) : Option PyDict :=
  match dget event "location" (.dict []) with
  | .dict location =>
    match gpsLatLon (dget location "gps" (.str "")) with
    | Option.none => Option.none
    | some (lat, lon) =>
      some ([("event_id", .str (pyStr (dget event "id" (.str "")))),
             ("datetime", dget event "datetime" (.str "")),
             ("name", dget event "name" (.str "")),
             ("summary", dget event "summary" (.str "")),
             ("url", dget event "url" (.str "")),
             ("type", dget event "type" (.str "")),
             ("location_name", dget location "name" (.str "")),
             ("latitude", lat),
             ("longitude", lon)] ++
            (if dhasKey event "html_available" then
              [("html_title", dget event "html_title" .none),
               ("html_preamble", dget event "html_preamble" .none),
               ("html_body", dget event "html_body" .none),
               ("html_published_datetime", dget event "html_published_datetime" .none),
               ("html_author", dget event "html_author" .none),
               ("html_available", dget event "html_available" (.bool false))]
            else []))
  | _ => Option.none

/-! ## Spec-side characterisation of well-formed GPS strings

Following the spec's words (§4.6 / §8): a coordinate string is accepted
exactly when it has the form `"<float>,<float>"` - exactly one comma, both
sides parse as numbers after stripping - with latitude in [55, 70] and
longitude in [10, 25]; the parsed pair is the exact parsed values. -/

/-- Spec-side classification of a coordinate string, written from the
spec's words, to be compared with the source-derived `parse_gps_string`. -/
def gpsSpecParse (s : String) : Option (ℚ × ℚ) :=
  match splitOnChar s.data ',' with
  | [a, b] =>
    match pyFloatChars (stripChars a), pyFloatChars (stripChars b) with
    | some lat, some lon =>
      if 55 ≤ lat ∧ lat ≤ 70 ∧ 10 ≤ lon ∧ lon ≤ 25 then some (lat, lon)
      else Option.none
    | _, _ => Option.none
  | _ => Option.none

/-! ## Helper lemmas about the dict model -/

theorem dinsert_cons_eq {α : Type} (q : String × α) (rest : List (String × α))
    (k : String) (v : α) (h : q.1 = k) : dinsert (q :: rest) k v = (k, v) :: rest := by
  simp [dinsert, h]

theorem dinsert_cons_ne {α : Type} (q : String × α) (rest : List (String × α))
    (k : String) (v : α) (h : ¬ q.1 = k) :
    dinsert (q :: rest) k v = q :: dinsert rest k v := by
  simp [dinsert, h]

theorem dlookup_dinsert_self {α : Type} (d : List (String × α)) (k : String) (v : α) :
    dlookup (dinsert d k v) k = some v := by
  induction d with
  | nil => simp [dinsert, dlookup]
  | cons p rest ih =>
    by_cases h : p.1 = k
    · rw [dinsert_cons_eq p rest k v h]
      simp [dlookup]
    · rw [dinsert_cons_ne p rest k v h]
      simp [dlookup, h, ih]

theorem dlookup_dinsert_ne {α : Type} (d : List (String × α)) (k k2 : String) (v : α)
    (h : k2 ≠ k) : dlookup (dinsert d k v) k2 = dlookup d k2 := by
  have h2 : ¬ (k = k2) := fun he => h he.symm
  induction d with
  | nil => simp [dinsert, dlookup, h2]
  | cons p rest ih =>
    by_cases hp : p.1 = k
    · rw [dinsert_cons_eq p rest k v hp]
      have hpk2 : ¬ p.1 = k2 := by rw [hp]; exact h2
      simp [dlookup, h2, hpk2]
    · rw [dinsert_cons_ne p rest k v hp]
      by_cases hp2 : p.1 = k2 <;> simp [dlookup, hp2, ih]

theorem mem_dinsert {α : Type} (d : List (String × α)) (k : String) (v : α)
    (p : String × α) (h : p ∈ dinsert d k v) : p = (k, v) ∨ p ∈ d := by
  induction d with
  | nil => simpa [dinsert] using h
  | cons q rest ih =>
    by_cases hq : q.1 = k
    · rw [dinsert_cons_eq q rest k v hq] at h
      rcases List.mem_cons.mp h with h | h
      · exact Or.inl h
      · exact Or.inr (List.mem_cons_of_mem _ h)
    · rw [dinsert_cons_ne q rest k v hq] at h
      rcases List.mem_cons.mp h with h | h
      · exact Or.inr (List.mem_cons.mpr (Or.inl h))
      · rcases ih h with h | h
        · exact Or.inl h
        · exact Or.inr (List.mem_cons_of_mem _ h)

theorem keys_dinsert_nodup {α : Type} (d : List (String × α)) (k : String) (v : α)
    (h : (d.map Prod.fst).Nodup) : ((dinsert d k v).map Prod.fst).Nodup := by
  induction d with
  | nil => simp [dinsert]
  | cons q rest ih =>
    simp only [List.map_cons, List.nodup_cons] at h
    by_cases hq : q.1 = k
    · rw [dinsert_cons_eq q rest k v hq]
      simp only [List.map_cons, List.nodup_cons]
      exact ⟨hq ▸ h.1, h.2⟩
    · rw [dinsert_cons_ne q rest k v hq]
      simp only [List.map_cons, List.nodup_cons]
      refine ⟨?_, ih h.2⟩
      intro hmem
      rcases List.mem_map.mp hmem with ⟨p, hp, hfst⟩
      rcases mem_dinsert rest k v p hp with rfl | hp2
      · exact hq hfst.symm
      · exact h.1 (hfst ▸ List.mem_map_of_mem Prod.fst hp2)

theorem countP_key_eq_one {α : Type} (d : List (String × α)) (k : String) (v : α)
    (hnd : (d.map Prod.fst).Nodup) (hl : dlookup d k = some v) :
    d.countP (fun p => decide (p.1 = k)) = 1 := by
  induction d with
  | nil => simp [dlookup] at hl
  | cons q rest ih =>
    simp only [List.map_cons, List.nodup_cons] at hnd
    by_cases hq : q.1 = k
    · have hzero : rest.countP (fun p => decide (p.1 = k)) = 0 := by
        refine List.countP_eq_zero.mpr ?_
        intro p hp
        simp only [decide_eq_true_eq]
        intro hpk
        exact hnd.1 (hq ▸ hpk ▸ List.mem_map_of_mem Prod.fst hp)
      simp [List.countP_cons, hq, hzero]
    · simp only [dlookup, if_neg hq] at hl
      simp [List.countP_cons, hq, ih hnd.2 hl]

theorem dhasKey_dinsert_self {α : Type} (d : List (String × α)) (k : String) (v : α) :
    dhasKey (dinsert d k v) k = true := by
  simp [dhasKey, dlookup_dinsert_self]

theorem dhasKey_dinsert_ne {α : Type} (d : List (String × α)) (k k2 : String) (v : α)
    (h : k2 ≠ k) : dhasKey (dinsert d k v) k2 = dhasKey d k2 := by
  simp [dhasKey, dlookup_dinsert_ne _ _ _ _ h]

/-- `(a :: l).getLast?` in terms of `l.getLast?`. -/
theorem getLastQ_cons {α : Type} (a : α) (l : List α) :
    (a :: l).getLast? = some (match l.getLast? with | some x => x | Option.none => a) := by
  induction l generalizing a with
  | nil => rfl
  | cons b bs ih =>
    rw [List.getLast?_cons_cons, ih b]

/-- `getLast?` over an append. -/
theorem getLastQ_append {α : Type} (l1 l2 : List α) :
    (l1 ++ l2).getLast? =
      (match l2.getLast? with | some x => some x | Option.none => l1.getLast?) := by
  cases l2 with
  | nil => simp
  | cons b bs =>
    rw [List.getLast?_append_cons, getLastQ_cons b bs]

/-! ## Merge-stage lemmas -/

/-- The records with identity `i` among a snapshot's raw entries, in list
order (non-mapping entries have no identity). -/
def idVersions (evs : List PyVal) (i : String) : List PyDict :=
  evs.filterMap (fun v =>
    match v with
    | .dict f => if eventId f = i then some f else Option.none
    | _ => Option.none)

theorem idVersions_nil (i : String) : idVersions [] i = [] := rfl

theorem idVersions_append (l1 l2 : List PyVal) (i : String) :
    idVersions (l1 ++ l2) i = idVersions l1 i ++ idVersions l2 i :=
  List.filterMap_append l1 l2 _

/-- After merging one snapshot's entries, the mapping at a non-empty
identity `i` holds the last version of `i` in the snapshot, if any,
otherwise whatever the accumulator held. -/
theorem mergeEvents_dlookup (i : String) (hi : i ≠ "") :
    ∀ (evs : List PyVal) (d m : EventMap), mergeEvents d evs = some m →
      dlookup m i =
        (match (idVersions evs i).getLast? with
         | some f => some f
         | Option.none => dlookup d i) := by
  intro evs
  induction evs with
  | nil =>
    intro d m h
    simp only [mergeEvents] at h
    cases h
    simp [idVersions]
  | cons ev rest ih =>
    intro d m h
    simp only [mergeEvents] at h
    cases hev : mergeEvent d ev with
    | none => rw [hev] at h; cases h
    | some d2 =>
      rw [hev] at h
      have ihm := ih d2 m h
      cases ev with
      | dict f =>
        simp only [mergeEvent] at hev
        by_cases hid : eventId f = ""
        · rw [if_pos hid] at hev
          cases hev
          have hfi : ¬ eventId f = i := fun he => hi (he.symm.trans hid)
          have : idVersions (PyVal.dict f :: rest) i = idVersions rest i := by
            simp [idVersions, hfi]
          rw [this]
          exact ihm
        · rw [if_neg hid] at hev
          cases hev
          by_cases hfi : eventId f = i
          · have hver : idVersions (PyVal.dict f :: rest) i = f :: idVersions rest i := by
              simp [idVersions, hfi]
            rw [hver, getLastQ_cons]
            have hlk : dlookup (dinsert d (eventId f) f) i = some f := by
              rw [hfi]; exact dlookup_dinsert_self d i f
            rw [hlk] at ihm
            cases hl : (idVersions rest i).getLast? with
            | none => rw [hl] at ihm; simpa [hl] using ihm
            | some x => rw [hl] at ihm; simpa [hl] using ihm
          · have hver : idVersions (PyVal.dict f :: rest) i = idVersions rest i := by
              simp [idVersions, hfi]
            rw [hver]
            have hlk : dlookup (dinsert d (eventId f) f) i = dlookup d i :=
              dlookup_dinsert_ne d (eventId f) i f (fun he => hfi he.symm)
            rw [hlk] at ihm
            exact ihm
      | none => simp [mergeEvent] at hev
      | bool b => simp [mergeEvent] at hev
      | int n => simp [mergeEvent] at hev
      | float q => simp [mergeEvent] at hev
      | str s => simp [mergeEvent] at hev
      | list xs => simp [mergeEvent] at hev

/-- Merging a sequence of snapshots: the mapping at a non-empty identity
holds the last version across the flattened walk, if any. -/
theorem mergeSnapshots_dlookup (i : String) (hi : i ≠ "") :
    ∀ (snaps : List (List PyVal)) (d m : EventMap), mergeSnapshots d snaps = some m →
      dlookup m i =
        (match (idVersions snaps.flatten i).getLast? with
         | some f => some f
         | Option.none => dlookup d i) := by
  intro snaps
  induction snaps with
  | nil =>
    intro d m h
    simp only [mergeSnapshots] at h
    cases h
    simp [idVersions]
  | cons evs rest ih =>
    intro d m h
    simp only [mergeSnapshots] at h
    cases hev : mergeEvents d evs with
    | none => rw [hev] at h; cases h
    | some d2 =>
      rw [hev] at h
      have ihm := ih d2 m h
      have hstep := mergeEvents_dlookup i hi evs d d2 hev
      rw [List.flatten_cons, idVersions_append, getLastQ_append]
      rw [hstep] at ihm
      cases hrest : (idVersions rest.flatten i).getLast? with
      | some x => rw [hrest] at ihm; simpa using ihm
      | none =>
        rw [hrest] at ihm
        cases hevs : (idVersions evs i).getLast? with
        | some y => rw [hevs] at ihm; simpa using ihm
        | none => rw [hevs] at ihm; simpa using ihm

/-- One merge step only ever inserts a record under its own non-empty
identity. -/
theorem mergeEvent_mem (d d2 : EventMap) (ev : PyVal) (p : String × PyDict)
    (h : mergeEvent d ev = some d2) (hp : p ∈ d2) :
    p ∈ d ∨ (p.1 = eventId p.2 ∧ p.1 ≠ "" ∧ ev = PyVal.dict p.2) := by
  cases ev with
  | dict f =>
    simp only [mergeEvent] at h
    by_cases hid : eventId f = ""
    · rw [if_pos hid] at h
      cases h
      exact Or.inl hp
    · rw [if_neg hid] at h
      cases h
      rcases mem_dinsert d (eventId f) f p hp with rfl | hmem
      · exact Or.inr ⟨rfl, hid, rfl⟩
      · exact Or.inl hmem
  | none => simp [mergeEvent] at h
  | bool b => simp [mergeEvent] at h
  | int n => simp [mergeEvent] at h
  | float q => simp [mergeEvent] at h
  | str s => simp [mergeEvent] at h
  | list xs => simp [mergeEvent] at h

/-- One merge step preserves uniqueness of the mapping's keys. -/
theorem mergeEvent_keys_nodup (d d2 : EventMap) (ev : PyVal)
    (h : mergeEvent d ev = some d2) (hnd : (d.map Prod.fst).Nodup) :
    (d2.map Prod.fst).Nodup := by
  cases ev with
  | dict f =>
    simp only [mergeEvent] at h
    by_cases hid : eventId f = ""
    · rw [if_pos hid] at h; cases h; exact hnd
    · rw [if_neg hid] at h; cases h; exact keys_dinsert_nodup d (eventId f) f hnd
  | none => simp [mergeEvent] at h
  | bool b => simp [mergeEvent] at h
  | int n => simp [mergeEvent] at h
  | float q => simp [mergeEvent] at h
  | str s => simp [mergeEvent] at h
  | list xs => simp [mergeEvent] at h

theorem mergeEvents_mem (p : String × PyDict) :
    ∀ (evs : List PyVal) (d m : EventMap), mergeEvents d evs = some m → p ∈ m →
      p ∈ d ∨ (p.1 = eventId p.2 ∧ p.1 ≠ "" ∧ PyVal.dict p.2 ∈ evs) := by
  intro evs
  induction evs with
  | nil =>
    intro d m h hp
    simp only [mergeEvents] at h
    cases h
    exact Or.inl hp
  | cons ev rest ih =>
    intro d m h hp
    simp only [mergeEvents] at h
    cases hev : mergeEvent d ev with
    | none => rw [hev] at h; cases h
    | some d2 =>
      rw [hev] at h
      rcases ih d2 m h hp with hmem | ⟨h1, h2, h3⟩
      · rcases mergeEvent_mem d d2 ev p hev hmem with hmem2 | ⟨h1, h2, h3⟩
        · exact Or.inl hmem2
        · exact Or.inr ⟨h1, h2, h3 ▸ List.mem_cons_self ev rest⟩
      · exact Or.inr ⟨h1, h2, List.mem_cons_of_mem ev h3⟩

theorem mergeEvents_keys_nodup :
    ∀ (evs : List PyVal) (d m : EventMap), mergeEvents d evs = some m →
      (d.map Prod.fst).Nodup → (m.map Prod.fst).Nodup := by
  intro evs
  induction evs with
  | nil =>
    intro d m h hnd
    simp only [mergeEvents] at h
    cases h
    exact hnd
  | cons ev rest ih =>
    intro d m h hnd
    simp only [mergeEvents] at h
    cases hev : mergeEvent d ev with
    | none => rw [hev] at h; cases h
    | some d2 =>
      rw [hev] at h
      exact ih d2 m h (mergeEvent_keys_nodup d d2 ev hev hnd)

theorem mergeSnapshots_mem (p : String × PyDict) :
    ∀ (snaps : List (List PyVal)) (d m : EventMap), mergeSnapshots d snaps = some m →
      p ∈ m → p ∈ d ∨ (p.1 = eventId p.2 ∧ p.1 ≠ "" ∧ PyVal.dict p.2 ∈ snaps.flatten) := by
  intro snaps
  induction snaps with
  | nil =>
    intro d m h hp
    simp only [mergeSnapshots] at h
    cases h
    exact Or.inl hp
  | cons evs rest ih =>
    intro d m h hp
    simp only [mergeSnapshots] at h
    cases hev : mergeEvents d evs with
    | none => rw [hev] at h; cases h
    | some d2 =>
      rw [hev] at h
      rcases ih d2 m h hp with hmem | ⟨h1, h2, h3⟩
      · rcases mergeEvents_mem p evs d d2 hev hmem with hmem2 | ⟨h1, h2, h3⟩
        · exact Or.inl hmem2
        · refine Or.inr ⟨h1, h2, ?_⟩
          rw [List.flatten_cons]
          exact List.mem_append.mpr (Or.inl h3)
      · refine Or.inr ⟨h1, h2, ?_⟩
        rw [List.flatten_cons]
        exact List.mem_append.mpr (Or.inr h3)

theorem mergeSnapshots_keys_nodup :
    ∀ (snaps : List (List PyVal)) (d m : EventMap), mergeSnapshots d snaps = some m →
      (d.map Prod.fst).Nodup → (m.map Prod.fst).Nodup := by
  intro snaps
  induction snaps with
  | nil =>
    intro d m h hnd
    simp only [mergeSnapshots] at h
    cases h
    exact hnd
  | cons evs rest ih =>
    intro d m h hnd
    simp only [mergeSnapshots] at h
    cases hev : mergeEvents d evs with
    | none => rw [hev] at h; cases h
    | some d2 =>
      rw [hev] at h
      exact ih d2 m h (mergeEvents_keys_nodup evs d d2 hev hnd)

/-- The merged mapping has unique keys. -/
theorem mergeAll_keys_nodup (snaps : List (List PyVal)) (m : EventMap)
    (h : mergeAll snaps = some m) : (m.map Prod.fst).Nodup :=
  mergeSnapshots_keys_nodup snaps [] m h (by simp)

/-- Every entry of the merged mapping is keyed by the non-empty coerced
identity of a record occurring in some snapshot. -/
theorem mergeAll_mem (snaps : List (List PyVal)) (m : EventMap) (p : String × PyDict)
    (h : mergeAll snaps = some m) (hp : p ∈ m) :
    p.1 = eventId p.2 ∧ p.1 ≠ "" ∧ PyVal.dict p.2 ∈ snaps.flatten := by
  rcases mergeSnapshots_mem p snaps [] m h hp with hmem | hgood
  · cases hmem
  · exact hgood

/-! ## Claims C1 and C8: merge semantics -/

/-- C1: for every sequence of snapshots processed in walk order and every
identity `i` with a non-empty string-coerced id appearing in at least one
snapshot, the merged mapping produced by `extract_all_events` before any
date filtering (`mergeAll`) contains exactly one record for `i`, and that
record is the version of `i` in the last snapshot (last occurrence in walk
order) containing a record with identity `i`. -/
theorem C1_merge_last_write_wins (snaps : List (List PyVal)) (m : EventMap) (i : String)
    (hm : mergeAll snaps = some m) (hi : i ≠ "")
    (hpres : idVersions snaps.flatten i ≠ []) :
    ∃ f, (idVersions snaps.flatten i).getLast? = some f ∧
      dlookup m i = some f ∧
      m.countP (fun p => decide (p.1 = i)) = 1 := by
  have h := mergeSnapshots_dlookup i hi snaps [] m hm
  cases hl : (idVersions snaps.flatten i).getLast? with
  | none => exact absurd (List.getLast?_eq_none_iff.mp hl) hpres
  | some f =>
    rw [hl] at h
    refine ⟨f, rfl, h, ?_⟩
    exact countP_key_eq_one m i f (mergeAll_keys_nodup snaps m hm) h

/-- The three-snapshot end-to-end scenario of spec §8: snapshot 1
introduces identity `123` with name `A`, snapshot 2 omits it, snapshot 3
updates it to name `B`. -/
def mergeScenarioSnaps : List (List PyVal) :=
  [[.dict [("id", .int 123), ("name", .str "A")]],
   [],
   [.dict [("id", .int 123), ("name", .str "B")]]]

/-- Witness for C1 on the spec §8 scenario: the merged mapping holds
exactly one record for `123`, and it is the name-`B` version from the last
snapshot. -/
theorem C1_witness :
    mergeAll mergeScenarioSnaps =
        some [("123", [("id", PyVal.int 123), ("name", PyVal.str "B")])] ∧
      ("123" : String) ≠ "" ∧
      ∃ f, (idVersions mergeScenarioSnaps.flatten "123").getLast? = some f ∧
        dlookup [("123", [("id", PyVal.int 123), ("name", PyVal.str "B")])] "123" = some f ∧
        List.countP (fun p => decide (p.1 = "123"))
          [("123", [("id", PyVal.int 123), ("name", PyVal.str "B")])] = 1 := by
  have hpres : idVersions mergeScenarioSnaps.flatten "123" ≠ [] := by
    have h : idVersions mergeScenarioSnaps.flatten "123" =
        [[("id", PyVal.int 123), ("name", PyVal.str "A")],
         [("id", PyVal.int 123), ("name", PyVal.str "B")]] := rfl
    rw [h]
    exact List.cons_ne_nil _ _
  exact ⟨rfl, by decide,
    C1_merge_last_write_wins mergeScenarioSnaps _ "123" rfl (by decide) hpres⟩

/-- C8: during the merge each record's identity is `str(event.get('id',
''))`; a record whose coerced identity is empty is skipped (the mapping is
unchanged), and a record with a non-empty coerced identity is inserted,
overwriting any earlier version under that identity; consequently every
entry of the merged mapping is keyed by the non-empty coerced identity of
its record. -/
theorem C8_identity_coercion :
    (∀ (d : EventMap) (f : PyDict), eventId f = "" → mergeEvent d (.dict f) = some d) ∧
    (∀ (d : EventMap) (f : PyDict), eventId f ≠ "" →
      mergeEvent d (.dict f) = some (dinsert d (eventId f) f) ∧
      dlookup (dinsert d (eventId f) f) (eventId f) = some f) ∧
    (∀ (snaps : List (List PyVal)) (m : EventMap) (p : String × PyDict),
      mergeAll snaps = some m → p ∈ m → p.1 ≠ "" ∧ p.1 = eventId p.2) := by
  refine ⟨?_, ?_, ?_⟩
  · intro d f h
    simp [mergeEvent, h]
  · intro d f h
    exact ⟨by simp [mergeEvent, h], dlookup_dinsert_self d (eventId f) f⟩
  · intro snaps m p hm hp
    have h := mergeAll_mem snaps m p hm hp
    exact ⟨h.2.1, h.1⟩

/-- Witness for C8: a record without `id` coerces to the empty identity and
is skipped; a record with `id: 5` coerces to `"5"`, is inserted
overwriting the earlier version, and the merged entry's key is its
non-empty identity. -/
theorem C8_witness :
    eventId [("name", PyVal.str "x")] = "" ∧
    mergeEvent [] (.dict [("name", PyVal.str "x")]) = some [] ∧
    eventId [("id", PyVal.int 5)] ≠ "" ∧
    mergeEvent [("5", [("x", PyVal.int 1)])] (.dict [("id", PyVal.int 5)]) =
      some (dinsert [("5", [("x", PyVal.int 1)])] "5" [("id", PyVal.int 5)]) ∧
    dlookup (dinsert [("5", [("x", PyVal.int 1)])] "5" [("id", PyVal.int 5)]) "5" =
      some [("id", PyVal.int 5)] ∧
    (("5", [("id", PyVal.int 5)]) : String × PyDict).1 ≠ "" := by
  refine ⟨rfl, C8_identity_coercion.1 [] _ rfl, by decide, ?_, ?_, ?_⟩
  · exact (C8_identity_coercion.2.1 [("5", [("x", PyVal.int 1)])] [("id", PyVal.int 5)]
      (by decide)).1
  · exact (C8_identity_coercion.2.1 [("5", [("x", PyVal.int 1)])] [("id", PyVal.int 5)]
      (by decide)).2
  · exact (C8_identity_coercion.2.2 [[.dict [("id", PyVal.int 5)]]]
      [("5", [("id", PyVal.int 5)])] ("5", [("id", PyVal.int 5)]) rfl
      (List.mem_cons_self _ _)).1

/-! ## Claim C4: snapshot parser tolerance -/

/-- C4: for every commit snapshot whose content fails to fetch, does not
parse as JSON, or parses to something other than a list, the parser
returns the empty sequence.  `extract_events_from_commit` is a total
function into `List PyVal` - both failure arms are caught - so it never
propagates an exception. -/
theorem C4_snapshot_parser_tolerant (r : SnapshotFetch)
    (h : ∀ xs : List PyVal, r ≠ .parsed (.list xs)) :
    extract_events_from_commit r = [] := by
  cases r with
  | fetchFailed => rfl
  | parseFailed => rfl
  | parsed v =>
    cases v with
    | list xs => exact absurd rfl (h xs)
    | none => rfl
    | bool b => rfl
    | int n => rfl
    | float q => rfl
    | str s => rfl
    | dict fs => rfl

/-- Witness for C4 at three concrete malformed snapshots: a failed fetch,
invalid JSON, and a JSON object instead of a list. -/
theorem C4_witness :
    extract_events_from_commit .fetchFailed = [] ∧
    extract_events_from_commit .parseFailed = [] ∧
    extract_events_from_commit (.parsed (.dict [("id", PyVal.int 1)])) = [] :=
  ⟨C4_snapshot_parser_tolerant .fetchFailed (fun _ h => by cases h),
   C4_snapshot_parser_tolerant .parseFailed (fun _ h => by cases h),
   C4_snapshot_parser_tolerant (.parsed (.dict [("id", PyVal.int 1)])) (fun _ h => by cases h)⟩

/-! ## Claim C6: per-unit failure isolation

The claim asserts that a snapshot that "contains malformed entries" is
skipped or degraded and the run completes.  That is true of un-fetchable
content, invalid JSON, non-list JSON, and of mapping entries without a
usable id - but a snapshot that parses to a list containing a non-mapping
entry (e.g. `["x"]`) reaches `event.get('id', '')` on a `str`, which
raises an uncaught `AttributeError` and aborts the whole run, contradicting
the claim (and `extract_events_from_commit`'s own docstring, which promises
a "list of event dicts").  Missing or malformed narrative documents, by
contrast, are fully isolated (`except Exception`). -/

/-- C6 evaluated at the failing input: the tolerated failure modes produce
empty snapshots and the run proceeds, and missing/malformed narrative
documents only degrade the record - but a parsed snapshot `["x"]` makes
the merge, and hence `extract_all_events`, abort
(`Option.none` models the uncaught `AttributeError`). -/
theorem C6_code_bug_eval :
    extract_events_from_commit .fetchFailed = [] ∧
    extract_events_from_commit .parseFailed = [] ∧
    extract_events_from_commit (.parsed (.str "oops")) = [] ∧
    enrich_with_html [("1", [("id", PyVal.int 1)])] (fun _ => .missing) =
      [("1", setNullHtml [("id", PyVal.int 1)])] ∧
    enrich_with_html [("1", [("id", PyVal.int 1)])] (fun _ => .malformed) =
      [("1", setNullHtml [("id", PyVal.int 1)])] ∧
    mergeEvent [] (PyVal.str "x") = Option.none ∧
    extract_all_events [.parsed (.list [PyVal.str "x"])] Option.none Option.none =
      Option.none :=
  ⟨rfl, rfl, rfl, rfl, rfl, rfl, rfl⟩

/-! ## Claim C5: date-filter bounds

The bound construction (zero the time on the lower bound, saturate the
upper bound to 23:59:59) and the inclusive comparisons are as specified -
for naive stored timestamps.  But the bounds built by `main` are naive
datetimes, and Python raises an uncaught `TypeError` when `<`/`>` compares
a naive datetime with an offset-aware one, so a record whose intrinsic
datetime parses as timezone-aware (the very format documented in the
source comment, `"2025-11-13 20:14:24 +01:00"`) aborts the run instead of
being retained. -/

/-- C5 evaluated on concrete inputs: bound construction and inclusive
boundaries behave as claimed on naive timestamps (retained at exactly
00:00:00 and 23:59:59, excluded one millisecond outside), but a record
whose datetime parses as timezone-aware makes `filterEvent`, and hence
`extract_all_events`, abort (`Option.none` models the uncaught
`TypeError`), refuting the claim for aware timestamps. -/
theorem C5_code_bug_eval :
    cli_start_date "2024-01-01" = some ⟨2024, 1, 1, 0, 0, 0, 0, Option.none⟩ ∧
    cli_end_date "2024-12-31" = some ⟨2024, 12, 31, 23, 59, 59, 0, Option.none⟩ ∧
    filterEvent (cli_start_date "2024-01-01") (cli_end_date "2024-12-31")
      [("datetime", PyVal.str "2024-01-01T00:00:00")] = some .keep ∧
    filterEvent (cli_start_date "2024-01-01") (cli_end_date "2024-12-31")
      [("datetime", PyVal.str "2024-12-31T23:59:59")] = some .keep ∧
    filterEvent (cli_start_date "2024-01-01") (cli_end_date "2024-12-31")
      [("datetime", PyVal.str "2024-12-31T23:59:59.001")] = some .dropSilent ∧
    filterEvent (cli_start_date "2024-01-01") (cli_end_date "2024-12-31")
      [("datetime", PyVal.str "2023-12-31T23:59:59.999")] = some .dropSilent ∧
    fromisoformat "2024-06-01T12:00:00+01:00" = some ⟨2024, 6, 1, 12, 0, 0, 0, some 60⟩ ∧
    filterEvent (cli_start_date "2024-01-01") Option.none
      [("datetime", PyVal.str "2024-06-01T12:00:00+01:00")] = Option.none ∧
    extract_all_events
      [.parsed (.list [.dict [("id", PyVal.int 1),
        ("datetime", PyVal.str "2024-06-01T12:00:00+01:00")]])]
      (cli_start_date "2024-01-01") Option.none = Option.none :=
  ⟨rfl, rfl, rfl, rfl, rfl, rfl, rfl, rfl, rfl⟩

/-! ## Claim C7: dropping records with missing/unparsable datetimes -/

/-- A record the filter keeps has a non-empty string `datetime` field that
parses. -/
theorem filterEvent_keep_parses (sd ed : Option PyDatetime) (e : PyDict)
    (h : filterEvent sd ed e = some .keep) :
    ∃ s dt, dget e "datetime" (.str "") = .str s ∧ s ≠ "" ∧ fromisoformat s = some dt := by
  unfold filterEvent at h
  cases hdt : dget e "datetime" (.str "") with
  | str s =>
    rw [hdt] at h
    dsimp only at h
    by_cases hs : s = ""
    · simp [hs] at h
    · rw [if_neg hs] at h
      cases hiso : fromisoformat s with
      | none => rw [hiso] at h; simp at h
      | some dt => exact ⟨s, dt, rfl, hs, hiso⟩
  | none => rw [hdt] at h; simp [pyTruthy] at h
  | bool b =>
    rw [hdt] at h
    by_cases hb : pyTruthy (.bool b) = true <;> simp [hb] at h
  | int n =>
    rw [hdt] at h
    by_cases hb : pyTruthy (.int n) = true <;> simp [hb] at h
  | float q =>
    rw [hdt] at h
    by_cases hb : pyTruthy (.float q) = true <;> simp [hb] at h
  | list xs =>
    rw [hdt] at h
    by_cases hb : pyTruthy (.list xs) = true <;> simp [hb] at h
  | dict fs =>
    rw [hdt] at h
    by_cases hb : pyTruthy (.dict fs) = true <;> simp [hb] at h

/-- Every record retained by the date-filter loop has a parsing datetime,
provided the accumulator starts that way. -/
theorem filterEvents_retained (sd ed : Option PyDatetime) :
    ∀ (l acc res : EventMap), filterEvents sd ed acc l = some res →
      (∀ q ∈ acc, ∃ s dt, dget q.2 "datetime" (.str "") = .str s ∧ s ≠ "" ∧
        fromisoformat s = some dt) →
      ∀ q ∈ res, ∃ s dt, dget q.2 "datetime" (.str "") = .str s ∧ s ≠ "" ∧
        fromisoformat s = some dt := by
  intro l
  induction l with
  | nil =>
    intro acc res h hacc
    simp only [filterEvents] at h
    cases h
    exact hacc
  | cons p rest ih =>
    intro acc res h hacc
    simp only [filterEvents] at h
    cases hf : filterEvent sd ed p.2 with
    | none => rw [hf] at h; cases h
    | some out =>
      rw [hf] at h
      cases out with
      | keep =>
        refine ih (dinsert acc p.1 p.2) res h ?_
        intro q hq
        rcases mem_dinsert acc p.1 p.2 q hq with rfl | hq2
        · exact filterEvent_keep_parses sd ed p.2 hf
        · exact hacc q hq2
      | dropSilent => exact ih acc res h hacc
      | dropWarn => exact ih acc res h hacc

/-- Counterexample to C7 as stated: with filtering active, a merged record
with no `datetime` field at all is dropped by the bare `continue` before
the `try` block - `FilterOutcome.dropSilent`, the arm that logs nothing -
not by the warning arm `FilterOutcome.dropWarn` the claim describes. -/
theorem C7_counterexample :
    filterEvent (cli_start_date "2024-01-01") Option.none [("id", PyVal.int 1)] =
        some .dropSilent ∧
    some FilterOutcome.dropSilent ≠ some FilterOutcome.dropWarn :=
  ⟨rfl, by decide⟩

/-- C7 amended: when date filtering is active, a merged record whose
intrinsic datetime is missing (or otherwise falsy) is dropped silently,
and a record whose non-empty datetime string fails to parse is dropped
with a warning; in neither case is the record retained - every retained
record has a non-empty, parseable datetime string. -/
theorem C7_unparsable_dropped :
    (∀ (sd ed : Option PyDatetime) (e : PyDict),
      dget e "datetime" (.str "") = .str "" → filterEvent sd ed e = some .dropSilent) ∧
    (∀ (sd ed : Option PyDatetime) (e : PyDict) (s : String),
      dget e "datetime" (.str "") = .str s → s ≠ "" → fromisoformat s = Option.none →
      filterEvent sd ed e = some .dropWarn) ∧
    (∀ (sd ed : Option PyDatetime) (l res : EventMap),
      filterEvents sd ed [] l = some res →
      ∀ q ∈ res, ∃ s dt, dget q.2 "datetime" (.str "") = .str s ∧ s ≠ "" ∧
        fromisoformat s = some dt) := by
  refine ⟨?_, ?_, ?_⟩
  · intro sd ed e h
    unfold filterEvent
    rw [h]
    dsimp only
    simp
  · intro sd ed e s h hs hiso
    unfold filterEvent
    rw [h]
    dsimp only
    rw [if_neg hs, hiso]
  · intro sd ed l res h
    exact filterEvents_retained sd ed l [] res h (by intro q hq; cases hq)

/-- Witness for the amended C7 at concrete inputs: a record with no
`datetime` is dropped silently, a record with an unparsable datetime is
dropped with a warning, and a concrete filtered run retains only records
with parseable datetimes. -/
theorem C7_witness :
    dget [("id", PyVal.int 1)] "datetime" (PyVal.str "") = PyVal.str "" ∧
    filterEvent (cli_start_date "2024-01-01") Option.none [("id", PyVal.int 1)] =
      some FilterOutcome.dropSilent ∧
    fromisoformat "not-a-date" = Option.none ∧
    filterEvent (cli_start_date "2024-01-01") Option.none
      [("datetime", PyVal.str "not-a-date")] = some FilterOutcome.dropWarn ∧
    filterEvents (cli_start_date "2024-01-01") Option.none []
      [("1", [("datetime", PyVal.str "2024-06-05T10:00:00")]), ("2", [("id", PyVal.int 2)])] =
      some [("1", [("datetime", PyVal.str "2024-06-05T10:00:00")])] ∧
    (∃ s dt, dget [("datetime", PyVal.str "2024-06-05T10:00:00")] "datetime" (PyVal.str "") =
      PyVal.str s ∧ s ≠ "" ∧ fromisoformat s = some dt) := by
  refine ⟨rfl, C7_unparsable_dropped.1 _ _ _ rfl, rfl,
    C7_unparsable_dropped.2.1 _ _ _ "not-a-date" rfl (by decide) rfl, rfl, ?_⟩
  exact C7_unparsable_dropped.2.2 (cli_start_date "2024-01-01") Option.none
    [("1", [("datetime", PyVal.str "2024-06-05T10:00:00")]), ("2", [("id", PyVal.int 2)])]
    [("1", [("datetime", PyVal.str "2024-06-05T10:00:00")])] rfl
    ("1", [("datetime", PyVal.str "2024-06-05T10:00:00")]) (List.mem_cons_self _ _)

/-! ## Claim C2: GPS parsing and the flat-record coordinate invariant -/

theorem splitOnChar_ne_nil (cs : List Char) (c : Char) : splitOnChar cs c ≠ [] := by
  induction cs with
  | nil => simp [splitOnChar]
  | cons x xs ih =>
    by_cases hx : x = c
    · simp [splitOnChar, hx]
    · simp only [splitOnChar, if_neg hx]
      cases h : splitOnChar xs c with
      | nil => exact absurd h ih
      | cons hh tt => simp

theorem splitOnChar_length (cs : List Char) (c : Char) :
    (splitOnChar cs c).length = cs.count c + 1 := by
  induction cs with
  | nil => simp [splitOnChar]
  | cons x xs ih =>
    by_cases hx : x = c
    · subst hx
      simp [splitOnChar, List.count_cons, ih]
    · simp only [splitOnChar, if_neg hx]
      cases h : splitOnChar xs c with
      | nil => exact absurd h (splitOnChar_ne_nil xs c)
      | cons hh tt =>
        rw [h] at ih
        simp only [List.length_cons] at ih ⊢
        have hbeq : (x == c) = false := by
          simp [hx]
        simp [List.count_cons, hbeq]
        omega

/-- The value carried by an `Except.ok`. -/
def exceptOk {ε α : Type} : Except ε α → Option α
  | .ok a => some a
  | .error _ => Option.none

/-- The source's `parse_gps_string` succeeds exactly on the spec's
well-formed in-bounds coordinate strings, with the same parsed pair. -/
theorem parse_gps_eq_spec (s : String) :
    exceptOk (parse_gps_string s) = gpsSpecParse s := by
  cases hsp : splitOnChar s.data ',' with
  | nil => exact absurd hsp (splitOnChar_ne_nil _ _)
  | cons a t =>
    have hlen := splitOnChar_length s.data ','
    rw [hsp] at hlen
    cases t with
    | nil =>
      have hcount : s.data.count ',' = 0 := by
        simp only [List.length_cons, List.length_nil] at hlen
        omega
      have hnomem : ',' ∉ s.data := List.count_eq_zero.mp hcount
      have hguard : s.data = [] ∨ ',' ∉ s.data := Or.inr hnomem
      simp [parse_gps_string, gpsSpecParse, hsp, hguard, exceptOk]
    | cons b t2 =>
      have hne : s.data ≠ [] := by
        intro hcs
        rw [hcs] at hsp
        simp [splitOnChar] at hsp
      have hmem : ',' ∈ s.data := by
        refine List.count_pos_iff.mp ?_
        simp only [List.length_cons] at hlen
        omega
      have hguard : ¬ (s.data = [] ∨ ',' ∉ s.data) := by
        push_neg
        exact ⟨hne, hmem⟩
      cases t2 with
      | nil =>
        simp only [parse_gps_string, gpsSpecParse, hsp, if_neg hguard]
        cases hfa : pyFloatChars (stripChars a) with
        | none => simp [exceptOk]
        | some lat =>
          cases hfb : pyFloatChars (stripChars b) with
          | none => simp [exceptOk]
          | some lon =>
            by_cases hla : 55 ≤ lat ∧ lat ≤ 70
            · by_cases hlo : 10 ≤ lon ∧ lon ≤ 25
              · simp [exceptOk, hla, hlo, hla.1, hla.2, hlo.1, hlo.2]
              · have : ¬ (55 ≤ lat ∧ lat ≤ 70 ∧ 10 ≤ lon ∧ lon ≤ 25) := by tauto
                simp [exceptOk, hla, hlo, this]
            · have : ¬ (55 ≤ lat ∧ lat ≤ 70 ∧ 10 ≤ lon ∧ lon ≤ 25) := by tauto
              simp [exceptOk, hla, this]
      | cons c3 t3 =>
        simp [parse_gps_string, gpsSpecParse, hsp, if_neg hguard, exceptOk]

theorem gpsSpecParse_bounds (s : String) (la lo : ℚ) (h : gpsSpecParse s = some (la, lo)) :
    55 ≤ la ∧ la ≤ 70 ∧ 10 ≤ lo ∧ lo ≤ 25 := by
  unfold gpsSpecParse at h
  split at h
  · split at h
    · split at h
      · rename_i hcond
        simp only [Option.some.injEq, Prod.mk.injEq] at h
        obtain ⟨rfl, rfl⟩ := h
        exact hcond
      · cases h
    · cases h
  · cases h

theorem gpsLatLon_shape (v lat lon : PyVal) (h : gpsLatLon v = some (lat, lon)) :
    (∃ la lo, lat = .float la ∧ lon = .float lo ∧
      55 ≤ la ∧ la ≤ 70 ∧ 10 ≤ lo ∧ lo ≤ 25) ∨
    (lat = .none ∧ lon = .none) := by
  cases v with
  | str s =>
    by_cases hs : s = ""
    · right
      subst hs
      rw [show gpsLatLon (.str "") = some (.none, .none) from rfl] at h
      simp only [Option.some.injEq, Prod.mk.injEq] at h
      exact ⟨h.1.symm, h.2.symm⟩
    · cases hp : parse_gps_string s with
      | ok p =>
        left
        have hspec : gpsSpecParse s = some p := by
          rw [← parse_gps_eq_spec, hp]; rfl
        have hbounds := gpsSpecParse_bounds s p.1 p.2 (by rw [hspec])
        simp only [gpsLatLon, if_neg hs, hp, Option.some.injEq, Prod.mk.injEq] at h
        exact ⟨p.1, p.2, h.1.symm, h.2.symm, hbounds⟩
      | error msg =>
        right
        simp only [gpsLatLon, if_neg hs, hp, Option.some.injEq, Prod.mk.injEq] at h
        exact ⟨h.1.symm, h.2.symm⟩
  | list xs =>
    right
    simp only [gpsLatLon] at h
    split at h
    · simp only [Option.some.injEq, Prod.mk.injEq] at h
      exact ⟨h.1.symm, h.2.symm⟩
    · split at h
      · cases h
      · simp only [Option.some.injEq, Prod.mk.injEq] at h
        exact ⟨h.1.symm, h.2.symm⟩
  | dict fs =>
    right
    simp only [gpsLatLon] at h
    split at h
    · simp only [Option.some.injEq, Prod.mk.injEq] at h
      exact ⟨h.1.symm, h.2.symm⟩
    · split at h
      · cases h
      · simp only [Option.some.injEq, Prod.mk.injEq] at h
        exact ⟨h.1.symm, h.2.symm⟩
  | none =>
    right
    rw [show gpsLatLon PyVal.none = some (PyVal.none, PyVal.none) from rfl] at h
    simp only [Option.some.injEq, Prod.mk.injEq] at h
    exact ⟨h.1.symm, h.2.symm⟩
  | bool b =>
    right
    simp only [gpsLatLon] at h
    split at h
    · cases h
    · simp only [Option.some.injEq, Prod.mk.injEq] at h
      exact ⟨h.1.symm, h.2.symm⟩
  | int n =>
    right
    simp only [gpsLatLon] at h
    split at h
    · cases h
    · simp only [Option.some.injEq, Prod.mk.injEq] at h
      exact ⟨h.1.symm, h.2.symm⟩
  | float q =>
    right
    simp only [gpsLatLon] at h
    split at h
    · cases h
    · simp only [Option.some.injEq, Prod.mk.injEq] at h
      exact ⟨h.1.symm, h.2.symm⟩

/-- C2: a coordinate string of the form `"<float>,<float>"` (exactly one
comma, both sides numeric after stripping) within the bounds
[55,70]×[10,25] makes the Flattener's GPS block produce exactly the parsed
latitude/longitude; every other string yields `None`/`None`; and
consequently every flat record has latitude and longitude either both
present (as in-bounds floats) or both null - never one without the
other. -/
theorem C2_gps_flattening :
    (∀ (s : String) (la lo : ℚ), gpsSpecParse s = some (la, lo) →
      gpsLatLon (.str s) = some (.float la, .float lo) ∧
      55 ≤ la ∧ la ≤ 70 ∧ 10 ≤ lo ∧ lo ≤ 25) ∧
    (∀ s : String, gpsSpecParse s = Option.none →
      gpsLatLon (.str s) = some (.none, .none)) ∧
    (∀ (event out : PyDict), flatten_event_for_export event = some out →
      (∃ la lo, dlookup out "latitude" = some (.float la) ∧
        dlookup out "longitude" = some (.float lo) ∧
        55 ≤ la ∧ la ≤ 70 ∧ 10 ≤ lo ∧ lo ≤ 25) ∨
      (dlookup out "latitude" = some .none ∧ dlookup out "longitude" = some .none)) := by
  refine ⟨?_, ?_, ?_⟩
  · intro s la lo hspec
    have hbounds := gpsSpecParse_bounds s la lo hspec
    have hs : s ≠ "" := by
      intro hs
      rw [hs] at hspec
      simp [gpsSpecParse, splitOnChar] at hspec
    cases hp : parse_gps_string s with
    | ok p =>
      have : some p = some (la, lo) := by
        rw [← hspec, ← parse_gps_eq_spec, hp]; rfl
      simp only [Option.some.injEq] at this
      subst this
      refine ⟨?_, hbounds⟩
      simp [gpsLatLon, hs, hp]
    | error msg =>
      have : (Option.none : Option (ℚ × ℚ)) = some (la, lo) := by
        rw [← hspec, ← parse_gps_eq_spec, hp]; rfl
      cases this
  · intro s hspec
    by_cases hs : s = ""
    · subst hs
      rfl
    · cases hp : parse_gps_string s with
      | ok p =>
        have : some p = (Option.none : Option (ℚ × ℚ)) := by
          rw [← hspec, ← parse_gps_eq_spec, hp]; rfl
        cases this
      | error msg => simp [gpsLatLon, hs, hp]
  · intro event out h
    unfold flatten_event_for_export at h
    cases hloc : dget event "location" (.dict []) with
    | dict location =>
      rw [hloc] at h
      dsimp only at h
      cases hg : gpsLatLon (dget location "gps" (.str "")) with
      | none => rw [hg] at h; cases h
      | some p =>
        rw [hg] at h
        dsimp only at h
        simp only [Option.some.injEq] at h
        subst h
        rcases gpsLatLon_shape _ p.1 p.2 (by rw [hg]) with ⟨la, lo, h1, h2, hb⟩ | ⟨h1, h2⟩
        · left
          refine ⟨la, lo, ?_, ?_, hb⟩
          · rw [← h1]
            simp [dlookup]
          · rw [← h2]
            simp [dlookup]
        · right
          constructor
          · rw [← h1]
            simp [dlookup]
          · rw [← h2]
            simp [dlookup]
    | none => rw [hloc] at h; cases h
    | bool b => rw [hloc] at h; cases h
    | int n => rw [hloc] at h; cases h
    | float q => rw [hloc] at h; cases h
    | str s => rw [hloc] at h; cases h
    | list xs => rw [hloc] at h; cases h

/-- Concrete event used in the C2 witness. -/
def c2WitnessEvent : PyDict :=
  [("id", PyVal.int 7),
   ("location", .dict [("name", .str "X"), ("gps", .str "62.5,17.5")])]

/-- Its flattening. -/
def c2WitnessOut : PyDict :=
  [("event_id", .str "7"), ("datetime", .str ""), ("name", .str ""),
   ("summary", .str ""), ("url", .str ""), ("type", .str ""),
   ("location_name", .str "X"), ("latitude", .float (mkRat 125 2)),
   ("longitude", .float (mkRat 35 2))]

/-- Witness for C2 on the spec §8 scenarios: `"62.63227,17.940871"` parses
to the exact values, `"62.6,200.0"` (longitude out of bounds) yields
null/null, and a concrete flat record satisfies the both-or-neither
invariant. -/
theorem C2_witness :
    gpsSpecParse "62.63227,17.940871" =
        some (mkRat 6263227 100000, mkRat 17940871 1000000) ∧
    (gpsLatLon (.str "62.63227,17.940871") =
        some (.float (mkRat 6263227 100000), .float (mkRat 17940871 1000000)) ∧
      55 ≤ mkRat 6263227 100000 ∧ mkRat 6263227 100000 ≤ 70 ∧
      10 ≤ mkRat 17940871 1000000 ∧ mkRat 17940871 1000000 ≤ 25) ∧
    gpsSpecParse "62.6,200.0" = Option.none ∧
    gpsLatLon (.str "62.6,200.0") = some (.none, .none) ∧
    flatten_event_for_export c2WitnessEvent = some c2WitnessOut ∧
    ((∃ la lo, dlookup c2WitnessOut "latitude" = some (.float la) ∧
        dlookup c2WitnessOut "longitude" = some (.float lo) ∧
        55 ≤ la ∧ la ≤ 70 ∧ 10 ≤ lo ∧ lo ≤ 25) ∨
      (dlookup c2WitnessOut "latitude" = some .none ∧
        dlookup c2WitnessOut "longitude" = some .none)) :=
  ⟨by decide, C2_gps_flattening.1 _ _ _ (by decide), by decide,
    C2_gps_flattening.2.1 _ (by decide), rfl,
    C2_gps_flattening.2.2 c2WitnessEvent c2WitnessOut rfl⟩

/-! ## Claims C3 and C10: narrative enrichment -/

/-- Field values after the null-out branches of `enrich_with_html`. -/
theorem setNullHtml_fields (e : PyDict) :
    dlookup (setNullHtml e) "html_available" = some (.bool false) ∧
    dlookup (setNullHtml e) "html_title" = some .none ∧
    dlookup (setNullHtml e) "html_preamble" = some .none ∧
    dlookup (setNullHtml e) "html_body" = some .none ∧
    dlookup (setNullHtml e) "html_published_datetime" = some .none ∧
    dlookup (setNullHtml e) "html_author" = some .none := by
  unfold setNullHtml
  refine ⟨?_, ?_, ?_, ?_, ?_, ?_⟩ <;>
    simp [dlookup_dinsert_self, dlookup_dinsert_ne]

/-- Field values after `event.update(html_data)` on a successful
extraction. -/
theorem dupdate_htmlDataObj_fields (e : PyDict) (t p b pub a : Option String) :
    dlookup (dupdate e (htmlDataObj t p b pub a)) "html_available" = some (.bool true) ∧
    dlookup (dupdate e (htmlDataObj t p b pub a)) "html_title" = some (optStr t) ∧
    dlookup (dupdate e (htmlDataObj t p b pub a)) "html_preamble" = some (optStr p) ∧
    dlookup (dupdate e (htmlDataObj t p b pub a)) "html_body" = some (optStr b) ∧
    dlookup (dupdate e (htmlDataObj t p b pub a)) "html_published_datetime" =
      some (optStr pub) ∧
    dlookup (dupdate e (htmlDataObj t p b pub a)) "html_author" = some (optStr a) := by
  unfold dupdate htmlDataObj
  refine ⟨?_, ?_, ?_, ?_, ?_, ?_⟩ <;>
    simp [List.foldl, dlookup_dinsert_self, dlookup_dinsert_ne]

/-- Enrichment never changes the key sequence of the mapping. -/
theorem enrich_keys (events : EventMap) (store : String → DocResult) :
    (enrich_with_html events store).map Prod.fst = events.map Prod.fst := by
  unfold enrich_with_html
  rw [List.map_map]
  refine List.map_congr_left ?_
  intro q hq
  simp only [Function.comp_apply]
  cases store q.1 <;> rfl

/-- Every record the enrichment pass touches ends up with the
`html_available` key. -/
theorem enrich_hasKey (events : EventMap) (store : String → DocResult) :
    ∀ p ∈ enrich_with_html events store, dhasKey p.2 "html_available" = true := by
  intro p hp
  unfold enrich_with_html at hp
  rcases List.mem_map.mp hp with ⟨q, hq, hfq⟩
  cases hst : store q.1 with
  | missing =>
    rw [hst] at hfq
    rw [← hfq]
    simp [setNullHtml, dhasKey_dinsert_self, dhasKey_dinsert_ne]
  | malformed =>
    rw [hst] at hfq
    rw [← hfq]
    simp [setNullHtml, dhasKey_dinsert_self, dhasKey_dinsert_ne]
  | extracted t pr b pub a =>
    rw [hst] at hfq
    rw [← hfq]
    simp [dupdate, htmlDataObj, List.foldl, dhasKey_dinsert_self]

/-- C3: after enrichment, a record whose document was missing or whose
extraction threw carries `html_available = False` and all five narrative
fields `None`; a record whose extraction succeeded carries
`html_available = True`; and no enriched record mixes
`html_available = False` with a populated narrative field. -/
theorem C3_narrative_consistency (events : EventMap) (store : String → DocResult)
    (p : String × PyDict) (hp : p ∈ enrich_with_html events store) :
    ((store p.1 = .missing ∨ store p.1 = .malformed) →
      dlookup p.2 "html_available" = some (.bool false) ∧
      dlookup p.2 "html_title" = some .none ∧
      dlookup p.2 "html_preamble" = some .none ∧
      dlookup p.2 "html_body" = some .none ∧
      dlookup p.2 "html_published_datetime" = some .none ∧
      dlookup p.2 "html_author" = some .none) ∧
    ((∃ t pr b pub a, store p.1 = .extracted t pr b pub a) →
      dlookup p.2 "html_available" = some (.bool true)) ∧
    (dlookup p.2 "html_available" = some (.bool false) →
      dlookup p.2 "html_title" = some .none ∧
      dlookup p.2 "html_preamble" = some .none ∧
      dlookup p.2 "html_body" = some .none ∧
      dlookup p.2 "html_published_datetime" = some .none ∧
      dlookup p.2 "html_author" = some .none) := by
  unfold enrich_with_html at hp
  rcases List.mem_map.mp hp with ⟨q, hq, hfq⟩
  cases hst : store q.1 with
  | missing =>
    rw [hst] at hfq
    have hfst : p.1 = q.1 := by rw [← hfq]
    have hsnd : p.2 = setNullHtml q.2 := by rw [← hfq]
    have hf := setNullHtml_fields q.2
    rw [hsnd]
    refine ⟨fun _ => hf, fun hex => ?_,
      fun _ => ⟨hf.2.1, hf.2.2.1, hf.2.2.2.1, hf.2.2.2.2.1, hf.2.2.2.2.2⟩⟩
    rcases hex with ⟨t, pr, b, pub, a, hex⟩
    rw [hfst, hst] at hex
    cases hex
  | malformed =>
    rw [hst] at hfq
    have hfst : p.1 = q.1 := by rw [← hfq]
    have hsnd : p.2 = setNullHtml q.2 := by rw [← hfq]
    have hf := setNullHtml_fields q.2
    rw [hsnd]
    refine ⟨fun _ => hf, fun hex => ?_,
      fun _ => ⟨hf.2.1, hf.2.2.1, hf.2.2.2.1, hf.2.2.2.2.1, hf.2.2.2.2.2⟩⟩
    rcases hex with ⟨t, pr, b, pub, a, hex⟩
    rw [hfst, hst] at hex
    cases hex
  | extracted t pr b pub a =>
    rw [hst] at hfq
    have hfst : p.1 = q.1 := by rw [← hfq]
    have hsnd : p.2 = dupdate q.2 (htmlDataObj t pr b pub a) := by rw [← hfq]
    have hf := dupdate_htmlDataObj_fields q.2 t pr b pub a
    rw [hsnd]
    refine ⟨fun hmiss => ?_, fun _ => hf.1, fun hfalse => ?_⟩
    · rw [hfst, hst] at hmiss
      rcases hmiss with hmiss | hmiss <;> cases hmiss
    · rw [hf.1] at hfalse
      cases hfalse

/-- Concrete mapping for the C3 witness. -/
def c3WitnessEvents : EventMap :=
  [("1", [("id", PyVal.int 1)]), ("2", [("id", PyVal.int 2)]), ("3", [("id", PyVal.int 3)])]

/-- Concrete document store for the C3 witness: document `1` missing,
document `2` malformed, document `3` extracted. -/
def c3WitnessStore : String → DocResult := fun k =>
  if k = "1" then .missing
  else if k = "2" then .malformed
  else .extracted (some "T") Option.none (some "B") Option.none (some "Polisen")

/-- Witness for C3: on a concrete enrichment run, the record with the
missing document has `html_available = False` and all five narrative
fields `None`, and the record with the successfully extracted document has
`html_available = True`. -/
theorem C3_witness :
    c3WitnessStore "1" = .missing ∧
    dlookup (setNullHtml [("id", PyVal.int 1)]) "html_available" = some (.bool false) ∧
    dlookup (setNullHtml [("id", PyVal.int 1)]) "html_title" = some .none ∧
    dlookup (setNullHtml [("id", PyVal.int 1)]) "html_preamble" = some .none ∧
    dlookup (setNullHtml [("id", PyVal.int 1)]) "html_body" = some .none ∧
    dlookup (setNullHtml [("id", PyVal.int 1)]) "html_published_datetime" = some .none ∧
    dlookup (setNullHtml [("id", PyVal.int 1)]) "html_author" = some .none ∧
    dlookup (dupdate [("id", PyVal.int 3)]
        (htmlDataObj (some "T") Option.none (some "B") Option.none (some "Polisen")))
      "html_available" = some (.bool true) := by
  have henrich : enrich_with_html c3WitnessEvents c3WitnessStore =
      [("1", setNullHtml [("id", PyVal.int 1)]),
       ("2", setNullHtml [("id", PyVal.int 2)]),
       ("3", dupdate [("id", PyVal.int 3)]
          (htmlDataObj (some "T") Option.none (some "B") Option.none (some "Polisen")))] := rfl
  have hmem1 : (("1", setNullHtml [("id", PyVal.int 1)]) : String × PyDict) ∈
      enrich_with_html c3WitnessEvents c3WitnessStore := by
    rw [henrich]
    exact List.mem_cons_self _ _
  have hmem3 : (("3", dupdate [("id", PyVal.int 3)]
        (htmlDataObj (some "T") Option.none (some "B") Option.none (some "Polisen"))) :
      String × PyDict) ∈ enrich_with_html c3WitnessEvents c3WitnessStore := by
    rw [henrich]
    exact List.mem_cons_of_mem _ (List.mem_cons_of_mem _ (List.mem_cons_self _ _))
  have h1 := (C3_narrative_consistency c3WitnessEvents c3WitnessStore _ hmem1).1 (Or.inl rfl)
  have h3 := (C3_narrative_consistency c3WitnessEvents c3WitnessStore _ hmem3).2.1
    ⟨some "T", Option.none, some "B", Option.none, some "Polisen", rfl⟩
  exact ⟨rfl, h1.1, h1.2.1, h1.2.2.1, h1.2.2.2.1, h1.2.2.2.2.1, h1.2.2.2.2.2, h3⟩

/-- C10: enrichment preserves the identity sequence of the mapping (no
record added or removed), and every record in the enriched mapping carries
the `html_available` key. -/
theorem C10_enrichment_preserves (events : EventMap) (store : String → DocResult) :
    (enrich_with_html events store).map Prod.fst = events.map Prod.fst ∧
    ∀ p ∈ enrich_with_html events store, dhasKey p.2 "html_available" = true :=
  ⟨enrich_keys events store, enrich_hasKey events store⟩

/-- Witness for C10 on a concrete run with a missing document: the key
sequence is unchanged and the record carries `html_available`. -/
theorem C10_witness :
    (enrich_with_html [("7", [("id", PyVal.int 7)])] (fun _ => DocResult.missing)).map
      Prod.fst = ["7"] ∧
    dhasKey (setNullHtml [("id", PyVal.int 7)]) "html_available" = true := by
  have h := C10_enrichment_preserves [("7", [("id", PyVal.int 7)])] (fun _ => DocResult.missing)
  refine ⟨by rw [h.1]; rfl, ?_⟩
  refine h.2 ("7", setNullHtml [("id", PyVal.int 7)]) ?_
  rw [show enrich_with_html [("7", [("id", PyVal.int 7)])] (fun _ => DocResult.missing) =
    [("7", setNullHtml [("id", PyVal.int 7)])] from rfl]
  exact List.mem_cons_self _ _

/-! ## Claim C9: narrative columns and the `html_available` marker -/

/-- The nine always-present flat-record columns, in source order. -/
def flatBaseKeys : List String :=
  ["event_id", "datetime", "name", "summary", "url", "type",
   "location_name", "latitude", "longitude"]

/-- The six narrative columns attached when the marker key exists. -/
def flatNarrativeKeys : List String :=
  ["html_title", "html_preamble", "html_body",
   "html_published_datetime", "html_author", "html_available"]

/-- The flat record's column sequence: the base columns, plus the
narrative columns exactly when the marker key `html_available` exists in
the input record. -/
theorem flatten_keys (event out : PyDict) (h : flatten_event_for_export event = some out) :
    out.map Prod.fst =
      flatBaseKeys ++ (if dhasKey event "html_available" then flatNarrativeKeys else []) := by
  unfold flatten_event_for_export at h
  cases hloc : dget event "location" (.dict []) with
  | dict location =>
    rw [hloc] at h
    dsimp only at h
    cases hg : gpsLatLon (dget location "gps" (.str "")) with
    | none => rw [hg] at h; cases h
    | some p =>
      rw [hg] at h
      dsimp only at h
      simp only [Option.some.injEq] at h
      subst h
      by_cases hk : dhasKey event "html_available" <;>
        simp [hk, flatBaseKeys, flatNarrativeKeys]
  | none => rw [hloc] at h; cases h
  | bool b => rw [hloc] at h; cases h
  | int n => rw [hloc] at h; cases h
  | float q => rw [hloc] at h; cases h
  | str s => rw [hloc] at h; cases h
  | list xs => rw [hloc] at h; cases h

/-- C9 amended: the Flattener attaches the six narrative columns exactly
when the marker key `html_available` exists in the record; after an
enrichment pass every record flattens with the narrative columns; and in a
run without enrichment a record flattens without them provided no snapshot
record itself carried the marker key (raw data that already contains
`html_available` is exported with the narrative columns even without
enrichment). -/
theorem C9_schema_marker :
    (∀ (event out : PyDict), flatten_event_for_export event = some out →
      out.map Prod.fst =
        flatBaseKeys ++ (if dhasKey event "html_available" then flatNarrativeKeys else [])) ∧
    (∀ (events : EventMap) (store : String → DocResult) (p : String × PyDict),
      p ∈ enrich_with_html events store → ∀ out : PyDict,
      flatten_event_for_export p.2 = some out →
      out.map Prod.fst = flatBaseKeys ++ flatNarrativeKeys) ∧
    (∀ (snaps : List (List PyVal)) (m : EventMap),
      mergeAll snaps = some m →
      (∀ f : PyDict, PyVal.dict f ∈ snaps.flatten → dhasKey f "html_available" = false) →
      ∀ p ∈ m, ∀ out : PyDict, flatten_event_for_export p.2 = some out →
      out.map Prod.fst = flatBaseKeys) := by
  refine ⟨flatten_keys, ?_, ?_⟩
  · intro events store p hp out hout
    have hk := enrich_hasKey events store p hp
    rw [flatten_keys p.2 out hout, hk]
    rfl
  · intro snaps m hm hnone p hp out hout
    have hprov := mergeAll_mem snaps m p hm hp
    have hk := hnone p.2 hprov.2.2
    rw [flatten_keys p.2 out hout, hk]
    simp

/-- Counterexample to C9's unconditional "a non-enriched run exports
records without the narrative columns": a snapshot record that itself
contains an `html_available` key survives the merge untouched, and the
Flattener attaches the narrative columns to it with no enrichment pass
involved. -/
theorem C9_counterexample :
    mergeAll [[PyVal.dict [("id", PyVal.int 7), ("html_available", PyVal.bool true)]]] =
      some [("7", [("id", PyVal.int 7), ("html_available", PyVal.bool true)])] ∧
    (∃ out : PyDict,
      flatten_event_for_export [("id", PyVal.int 7), ("html_available", PyVal.bool true)] =
        some out ∧
      out.map Prod.fst = flatBaseKeys ++ flatNarrativeKeys ∧
      dhasKey out "html_title" = true) := by
  refine ⟨rfl, _, rfl, rfl, rfl⟩

/-- Witness for the amended C9: a record without the marker flattens to
the nine base columns only; an enriched record flattens with the six
narrative columns; and a merged, non-enriched run over marker-free
snapshots exports base columns only. -/
theorem C9_witness :
    (∃ out : PyDict, flatten_event_for_export [("id", PyVal.int 1)] = some out ∧
      out.map Prod.fst = flatBaseKeys ++ []) ∧
    (∃ out : PyDict,
      flatten_event_for_export (setNullHtml [("id", PyVal.int 7)]) = some out ∧
      out.map Prod.fst = flatBaseKeys ++ flatNarrativeKeys) ∧
    (∃ out : PyDict,
      flatten_event_for_export [("id", PyVal.int 123), ("name", PyVal.str "B")] = some out ∧
      out.map Prod.fst = flatBaseKeys) := by
  refine ⟨⟨_, rfl, ?_⟩, ⟨_, rfl, ?_⟩, ⟨_, rfl, ?_⟩⟩
  · exact C9_schema_marker.1 [("id", PyVal.int 1)] _ rfl
  · refine C9_schema_marker.2.1 [("7", [("id", PyVal.int 7)])] (fun _ => DocResult.missing)
      ("7", setNullHtml [("id", PyVal.int 7)]) ?_ _ rfl
    rw [show enrich_with_html [("7", [("id", PyVal.int 7)])] (fun _ => DocResult.missing) =
      [("7", setNullHtml [("id", PyVal.int 7)])] from rfl]
    exact List.mem_cons_self _ _
  · refine C9_schema_marker.2.2 mergeScenarioSnaps
      [("123", [("id", PyVal.int 123), ("name", PyVal.str "B")])] rfl ?_
      ("123", [("id", PyVal.int 123), ("name", PyVal.str "B")])
      (List.mem_cons_self _ _) _ rfl
    intro f hf
    rw [show mergeScenarioSnaps.flatten =
      [PyVal.dict [("id", PyVal.int 123), ("name", PyVal.str "A")],
       PyVal.dict [("id", PyVal.int 123), ("name", PyVal.str "B")]] from rfl] at hf
    rcases List.mem_cons.mp hf with hf | hf
    · cases hf
      rfl
    · rcases List.mem_cons.mp hf with hf | hf
      · cases hf
        rfl
      · cases hf
